import Mathlib

/-!
Verification of the MCP-InfraOps routing core against its specification.

The development shallowly embeds three Python modules:

* `chatgpt/device_registry.py`  (class `DeviceRegistry`): vendor detection,
  stack lookup, device extraction from free text and routing resolution.
* `chatgpt/intent_classifier.py` (class `IntentClassifier`): LLM-first intent
  classification with a deterministic keyword fallback.
* `chatgpt/telemetry.py` (class `CommandTelemetry`): per-device and
  per-command execution metrics with threshold alerts.

Modelling conventions: Python strings are Lean `String`; the substring test
`a in b` is infix containment on the character lists; Python dicts that are
iterated in insertion order are association lists; `defaultdict` instances
whose keys are never enumerated are total functions with the default as the
initial value; Python `set` objects are `Finset String` (the one `set.pop`
call in `get_routing_path` is modelled by taking the first element in device
mention order, a choice commented at the definition); floats are `Rat`;
`datetime` timestamps are `Int` seconds. Fallible operations return `Option`.
-/

/-- Python `needle in hay` on strings: infix containment of character lists. -/
def strContains (hay needle : String) : Bool :=
  decide (List.IsInfix needle.data hay.data)

/-- Python `str.lower` restricted to ASCII, applied characterwise. -/
def lowerStr (s : String) : String :=
  String.mk (s.data.map Char.toLower)

/-- Python `str.upper` restricted to ASCII, applied characterwise. -/
def upperStr (s : String) : String :=
  String.mk (s.data.map Char.toUpper)

/-- Lookup in an insertion-ordered association list (Python `dict.get`). -/
def alGet? {α : Type} : List (String × α) → String → Option α
  | [], _ => none
  | (k', v) :: rest, k => if k' = k then some v else alGet? rest k

/-- Python `dict[k] = v`: overwrite in place if the key exists, else append. -/
def alSet {α : Type} : List (String × α) → String → α → List (String × α)
  | [], k, v => [(k, v)]
  | (k', v') :: rest, k, v =>
      if k' = k then (k, v) :: rest else (k', v') :: alSet rest k v

/-- Python `dict.setdefault(k, []).append(v)`: push `v` onto the list at `k`,
creating the key at the end of the dict when absent. -/
def alPush {α : Type} : List (String × List α) → String → α → List (String × List α)
  | [], k, v => [(k, [v])]
  | (k', vs) :: rest, k, v =>
      if k' = k then (k', vs ++ [v]) :: rest else (k', vs) :: alPush rest k v

/-- Total lookup returning `[]` for a missing key (reads of a dict of lists). -/
def alGetL (m : List (String × List String)) (k : String) : List String :=
  (alGet? m k).getD []

/-- Python `if k not in d: d[k] = v` (first occurrence wins). -/
def alSetIfAbsent {α : Type} (m : List (String × α)) (k : String) (v : α) :
    List (String × α) :=
  if (alGet? m k).isSome then m else m ++ [(k, v)]

/-- Pointwise update of a defaultdict modelled as a total function. -/
def updFn {α : Type} (f : String → α) (k : String) (v : α) : String → α :=
  fun i => if i = k then v else f i

/-! ## Device registry (`device_registry.py`) -/

/-- Entry of `DeviceRegistry.devices` as built by `register_device`. -/
structure Device where
  name : String
  vendor : String
  platform : String
  os : String
  dtype : String
  aliasName : String
  ip : String
deriving DecidableEq

/-- The relevant fields of one `testbed.yaml` device entry (`device_config`):
`none` models an absent key, so `cfg.platform.getD "unknown"` is Python
`device_config.get('platform', 'unknown')`. -/
structure DeviceConfig where
  platform : Option String
  os : Option String
  dtype : Option String
  aliasName : Option String
  cliIp : Option String
deriving DecidableEq

/-- State of a `DeviceRegistry` instance. -/
structure DeviceRegistry where
  devices : List (String × Device)
  vendor_to_devices : List (String × List String)
  platform_to_vendor : List (String × String)
  vendor_stack_map : List (String × String)

/-- Hard-coded default vendor-to-stack map of `_load_vendor_stack_map`. -/
def default_vendor_stack_map : List (String × String) :=
  [("cisco", "pyats"), ("linux", "ansible"), ("windows", "ansible"),
   ("juniper", "ansible"), ("hpe", "ansible"), ("meraki", "ansible"),
   ("azure", "ansible")]

/-- A registry before any device is loaded, holding the default stack map. -/
def emptyRegistry : DeviceRegistry :=
  { devices := [], vendor_to_devices := [], platform_to_vendor := [],
    vendor_stack_map := default_vendor_stack_map }

/-- Method `_detect_vendor(platform, os_type, device_name)`: ordered
first-match-wins cascade over platform, then OS, then the device name. -/
def detect_vendor (platform os_type device_name : String) : String :=
  if ["junos", "juniper", "vsrx", "srx", "mx", "ex"].any
      (fun x => strContains platform x) then "juniper"
  else if strContains os_type "junos" then "juniper"
  else if ["ios", "iosxe", "iosxr", "csr", "nxos", "cisco"].any
      (fun x => strContains platform x) then "cisco"
  else if strContains os_type "ios" || strContains os_type "iosxe" then "cisco"
  else if ["comware", "hpe", "hp"].any (fun x => strContains platform x) then "hpe"
  else if strContains os_type "comware" then "hpe"
  else if strContains platform "meraki" || strContains os_type "meraki" then "meraki"
  else if ["ubuntu", "linux", "debian", "centos", "rhel"].any
      (fun x => strContains platform x) then "linux"
  else if ["linux", "ubuntu", "debian", "centos", "rhel"].any
      (fun x => strContains os_type x) then "linux"
  else if ["windows", "winrm"].any (fun x => strContains platform x) then "windows"
  else if strContains os_type "windows" then "windows"
  else if device_name ≠ "" then
    (if strContains (lowerStr device_name) "router" then "cisco"
     else if strContains (lowerStr device_name) "switch" then "cisco"
     else if strContains (lowerStr device_name) "firewall"
         || strContains (lowerStr device_name) "srx" then "juniper"
     else if strContains (lowerStr device_name) "vm"
         || strContains (lowerStr device_name) "host" then "linux"
     else "unknown")
  else "unknown"

/-- Method `register_device(device_name, device_config)`. -/
def register_device (reg : DeviceRegistry) (device_name : String)
    (cfg : DeviceConfig) : DeviceRegistry :=
  let platform := lowerStr (cfg.platform.getD "unknown")
  let os_type := lowerStr (cfg.os.getD "unknown")
  let vendor := detect_vendor platform os_type device_name
  let dev : Device :=
    { name := device_name, vendor := vendor, platform := platform,
      os := os_type, dtype := cfg.dtype.getD "unknown",
      aliasName := cfg.aliasName.getD "", ip := cfg.cliIp.getD "unknown" }
  { reg with
    devices := alSet reg.devices device_name dev,
    vendor_to_devices := alPush reg.vendor_to_devices vendor device_name,
    platform_to_vendor := alSetIfAbsent reg.platform_to_vendor platform vendor }

/-- Method `get_device_vendor(device_name)`. -/
def get_device_vendor (reg : DeviceRegistry) (device_name : String) :
    Option String :=
  (alGet? reg.devices device_name).map (fun d => d.vendor)

/-- Method `get_stack_for_vendor(vendor)`; the argument is `Option` because
Python callers pass `None` as well as strings, and `if not vendor` also
catches the empty string. -/
def get_stack_for_vendor (reg : DeviceRegistry) (vendor : Option String) :
    String :=
  match vendor with
  | none => "pyats"
  | some v =>
      if v = "" then "pyats"
      else (alGet? reg.vendor_stack_map (lowerStr v)).getD "pyats"

/-- Method `get_stack_for_device(device_name)`. -/
def get_stack_for_device (reg : DeviceRegistry) (device_name : String) :
    String :=
  get_stack_for_vendor reg (get_device_vendor reg device_name)

/-- Method `categorize_devices_by_stack(device_names)`: fold of
`categorized.setdefault(stack, []).append(device_name)` skipping falsy
(empty) names. -/
def categorize_devices_by_stack (reg : DeviceRegistry)
    (device_names : List String) : List (String × List String) :=
  device_names.foldl
    (fun acc n =>
      if n = "" then acc else alPush acc (get_stack_for_device reg n) n)
    []

/-- Method `extract_devices_from_text(text)`: case-insensitive substring scan
of every registered device name over the text, first-seen order, no
duplicates. -/
def extract_devices_from_text (reg : DeviceRegistry) (text : String) :
    List String :=
  let text_lower := lowerStr text
  reg.devices.foldl
    (fun acc p =>
      if strContains text_lower (lowerStr p.1) then
        (if p.1 ∈ acc then acc else acc ++ [p.1])
      else acc)
    []

/-- Method `get_vendor_from_keywords(text)`. The keyword `Get-` is kept
verbatim from the source: it is compared against the lowered text and so can
never match, faithfully to the code. -/
def get_vendor_from_keywords (text : String) : Option String :=
  let text_lower := lowerStr text
  if ["junos", "juniper", "vsrx", "srx"].any (fun x => strContains text_lower x)
    then some "juniper"
  else if ["cisco", "ios", "iosxe"].any (fun x => strContains text_lower x)
    then some "cisco"
  else if ["comware", "hpe"].any (fun x => strContains text_lower x)
    then some "hpe"
  else if ["meraki"].any (fun x => strContains text_lower x)
    then some "meraki"
  else if ["linux", "ubuntu", "bash", "uname"].any
      (fun x => strContains text_lower x) then some "linux"
  else if ["windows", "powershell", "Get-"].any
      (fun x => strContains text_lower x) then some "windows"
  else none

/-- The value `set(self.get_device_vendor(dev) for dev in mentioned_devices
if dev in self.devices)` of `get_routing_path`, as the deduplicated list of
vendors in device mention order. -/
def vendorsOf (reg : DeviceRegistry) (devs : List String) : List String :=
  devs.foldl
    (fun acc d =>
      match alGet? reg.devices d with
      | none => acc
      | some dev => if dev.vendor ∈ acc then acc else acc ++ [dev.vendor])
    []

/-- Method `get_routing_path(text)`. CPython `set.pop()` removes an
unspecified element; it is modelled as the first vendor in device mention
order. No theorem below depends on which element is chosen except through
this definition. -/
def get_routing_path (reg : DeviceRegistry) (text : String) :
    Option (List String) × Option String :=
  let mentioned_devices := extract_devices_from_text reg text
  let vendor_keyword := get_vendor_from_keywords text
  if mentioned_devices ≠ [] then
    (some mentioned_devices, (vendorsOf reg mentioned_devices).head?)
  else if vendor_keyword.isSome then (none, vendor_keyword)
  else (none, none)

/-- Reading of the specification sentence for claim C4: the vendor component
of `resolveRouting` as the full set of vendors of the resolved mentioned
devices. Defined from the words of the spec, to be compared with what the
code returns. -/
def routingVendorSet (reg : DeviceRegistry) (text : String) : Finset String :=
  ((extract_devices_from_text reg text).filterMap
    (fun d => get_device_vendor reg d)).toFinset

/-- Interpretation of an optional vendor as the set it can represent. -/
def optionToFinset (v : Option String) : Finset String :=
  match v with
  | none => ∅
  | some x => {x}

/-! ## Intent classifier (`intent_classifier.py`) -/

/-- Enum `RequestIntent`, in source declaration order. -/
inductive RequestIntent where
  | KNOWLEDGE
  | NETWORK_DEVICE
  | INFRASTRUCTURE
  | SERVICENOW
  | SEARCH
  | OTHER
deriving DecidableEq

/-- The `.value` string of each `RequestIntent` member. -/
def intentValue : RequestIntent → String
  | .KNOWLEDGE => "KNOWLEDGE"
  | .NETWORK_DEVICE => "NETWORK_DEVICE"
  | .INFRASTRUCTURE => "INFRASTRUCTURE"
  | .SERVICENOW => "SERVICENOW"
  | .SEARCH => "SEARCH"
  | .OTHER => "OTHER"

/-- Iteration order of `intent_scores` (insertion order of
`{intent: 0 for intent in RequestIntent}`), hence enum declaration order. -/
def allIntents : List RequestIntent :=
  [.KNOWLEDGE, .NETWORK_DEVICE, .INFRASTRUCTURE, .SERVICENOW, .SEARCH, .OTHER]

/-- Position of an intent in the enum declaration order. -/
def intentRank : RequestIntent → Nat
  | .KNOWLEDGE => 0
  | .NETWORK_DEVICE => 1
  | .INFRASTRUCTURE => 2
  | .SERVICENOW => 3
  | .SEARCH => 4
  | .OTHER => 5

/-- Lookup `RequestIntent[name]` by member name. -/
def intentOfName (s : String) : Option RequestIntent :=
  if s = "KNOWLEDGE" then some .KNOWLEDGE
  else if s = "NETWORK_DEVICE" then some .NETWORK_DEVICE
  else if s = "INFRASTRUCTURE" then some .INFRASTRUCTURE
  else if s = "SERVICENOW" then some .SERVICENOW
  else if s = "SEARCH" then some .SEARCH
  else if s = "OTHER" then some .OTHER
  else none

/-- The `patterns` table of `_classify_with_keywords`; `OTHER` has no
keywords and so always scores 0, as in the source dict. -/
def keywordPatterns : RequestIntent → List String
  | .INFRASTRUCTURE =>
      ["create vm", "create vnet", "create subnet", "create firewall",
       "create azure", "deploy vm", "terraform", "infrastructure",
       "storage account", "app gateway", "resource group"]
  | .NETWORK_DEVICE =>
      ["show interface", "show version", "configure", "cisco",
       "router", "switch", "device", "testbed", "pyats",
       "r1", "r2", "sw1", "sw2", "vlan", "acl", "bgp"]
  | .SERVICENOW =>
      ["create ticket", "incident", "problem", "ticket",
       "create problem", "create incident"]
  | .KNOWLEDGE =>
      ["what is", "explain", "tell me about", "how does",
       "definition of", "describe", "what are", "information about"]
  | .SEARCH =>
      ["search for", "find", "look up", "research"]
  | .OTHER => []

/-- Score of one intent: the number of its keywords occurring in the lowered
query (`intent_scores[intent] += 1` once per matching keyword). -/
def intentScore (q : String) (i : RequestIntent) : Nat :=
  (keywordPatterns i).countP (fun kw => strContains (lowerStr q) kw)

/-- Python `max(iterable, key=f)`: keep the current candidate unless a
strictly greater element appears, so the first maximum wins. -/
def pickBest (f : RequestIntent → Nat) :
    List RequestIntent → RequestIntent → RequestIntent
  | [], cur => cur
  | i :: rest, cur => pickBest f rest (if f cur < f i then i else cur)

/-- The value `max(intent_scores, key=intent_scores.get)` of
`_classify_with_keywords`. -/
def bestKeywordIntent (q : String) : RequestIntent :=
  pickBest (intentScore q)
    [.NETWORK_DEVICE, .INFRASTRUCTURE, .SERVICENOW, .SEARCH, .OTHER]
    .KNOWLEDGE

/-- Sum `sum(intent_scores.values())`. -/
def totalScore (q : String) : Nat :=
  (allIntents.map (intentScore q)).sum

/-- Return value of `classify` and of its helpers. -/
structure ClassificationResult where
  intent : RequestIntent
  confidence : Rat
  reasoning : String
  method : String
deriving DecidableEq

/-- Method `_classify_with_keywords(user_query)`. -/
def classify_with_keywords (q : String) : ClassificationResult :=
  let best := bestKeywordIntent q
  if intentScore q best = 0 then
    { intent := .OTHER, confidence := mkRat 3 10,
      reasoning := "Keyword match: " ++ intentValue .OTHER,
      method := "keywords" }
  else
    { intent := best,
      confidence := mkRat (intentScore q best) (totalScore q),
      reasoning := "Keyword match: " ++ intentValue best,
      method := "keywords" }

/-- Outcome of one call to the injected chat-completion collaborator, at the
boundary specified in the spec: a raised transport error, assistant text that
fails to parse as a JSON object (`json.JSONDecodeError`, or a shape error
caught by the enclosing handler), or the parsed `{intent, confidence,
reasoning}` fields with their `get` defaults already applied. -/
inductive LlmOutcome where
  | raised
  | badJson
  | parsed (intent : String) (confidence : Rat) (reasoning : String)
deriving DecidableEq

/-- Whether a backend call failed (transport, parse, or any exception). -/
def LlmOutcome.isError : LlmOutcome → Bool
  | .raised => true
  | .badJson => true
  | .parsed _ _ _ => false

/-- Method `_classify_with_llm(user_query)` given the injected collaborator:
every failure falls back to `_classify_with_keywords`; a parsed reply has its
intent string uppercased and validated against the enum, an unrecognized name
becoming `OTHER` with the `llm` provenance tag. -/
def classify_with_llm (backend : String → LlmOutcome) (q : String) :
    ClassificationResult :=
  match backend q with
  | .raised => classify_with_keywords q
  | .badJson => classify_with_keywords q
  | .parsed i c r =>
      match intentOfName (upperStr i) with
      | some intent =>
          { intent := intent, confidence := c, reasoning := r, method := "llm" }
      | none =>
          { intent := .OTHER, confidence := c, reasoning := r, method := "llm" }

/-- Method `classify(user_query)`: with no client available (constructor
argument absent and the `http_server` import failing) the keyword fallback
runs; otherwise the LLM path runs with its internal fallbacks. -/
def classify (client : Option (String → LlmOutcome)) (q : String) :
    ClassificationResult :=
  match client with
  | none => classify_with_keywords q
  | some b => classify_with_llm b q

/-- A collaborator that raises on every call, for exercising the degraded
path of `classify`. -/
def failingBackend : String → LlmOutcome := fun _ => .raised

/-! ## Telemetry (`telemetry.py`) -/

/-- Enum `ExecutionStatus`. -/
inductive ExecutionStatus where
  | SUCCESS
  | FAILURE
  | TIMEOUT
  | INVALID_COMMAND
  | NO_DEVICE
  | UNKNOWN
deriving DecidableEq

/-- The `.value` string of each `ExecutionStatus` member. -/
def ExecutionStatus.value : ExecutionStatus → String
  | .SUCCESS => "success"
  | .FAILURE => "failure"
  | .TIMEOUT => "timeout"
  | .INVALID_COMMAND => "invalid_command"
  | .NO_DEVICE => "no_device"
  | .UNKNOWN => "unknown"

/-- Per-device entry of `self.device_metrics`. -/
structure DeviceMetrics where
  total : Nat
  success : Nat
  failure : Nat
  timeout : Nat
  avg_duration_ms : Rat
  last_execution : Option Int
  status_history : List (String × Int)
deriving DecidableEq

/-- Default value a `defaultdict` lambda produces for a fresh device. -/
def DeviceMetrics.fresh : DeviceMetrics :=
  { total := 0, success := 0, failure := 0, timeout := 0,
    avg_duration_ms := 0, last_execution := none, status_history := [] }

/-- Per-command entry of `self.command_metrics`. -/
structure CommandMetrics where
  total : Nat
  success : Nat
  failure : Nat
  devices_failed_on : Finset String
deriving DecidableEq

/-- Default value a `defaultdict` lambda produces for a fresh command. -/
def CommandMetrics.fresh : CommandMetrics :=
  { total := 0, success := 0, failure := 0, devices_failed_on := ∅ }

/-- State of a `CommandTelemetry` instance; the two defaultdicts are total
functions since no modelled operation enumerates their keys. -/
structure CommandTelemetry where
  retention_seconds : Int
  device_metrics : String → DeviceMetrics
  command_metrics : String → CommandMetrics

/-- A freshly constructed `CommandTelemetry(retention_seconds)`. -/
def CommandTelemetry.start (retention_seconds : Int) : CommandTelemetry :=
  { retention_seconds := retention_seconds,
    device_metrics := fun _ => DeviceMetrics.fresh,
    command_metrics := fun _ => CommandMetrics.fresh }

/-- An alert message of `_check_alerts`, by kind with the data interpolated
into the source f-string; `msgTag` below is the literal the message starts
with. -/
inductive Alert where
  | highFailureRate (device : String) (failure : Nat) (total : Nat)
  | consecutiveFailures (device : String) (count : Nat)
  | commandRegression (command : String) (devices : Finset String)
deriving DecidableEq

/-- Leading literal of the alert f-string of each kind. -/
def Alert.msgTag : Alert → String
  | .highFailureRate _ _ _ => "HIGH FAILURE RATE"
  | .consecutiveFailures _ _ => "CONSECUTIVE FAILURES"
  | .commandRegression _ _ => "COMMAND REGRESSION"

/-- The consecutive-failure count of `_check_alerts`: walk
`reversed(status_history[-10:])`, that is the newest-first prefix of length
at most 10, counting entries until the first `"success"`. -/
def consecFailCount (history : List (String × Int)) : Nat :=
  ((history.reverse.take 10).takeWhile (fun p => p.1 != "success")).length

/-- Method `_check_alerts(device, command)`. -/
def check_alerts (tel : CommandTelemetry) (device command : String) :
    List Alert :=
  let dev_stats := tel.device_metrics device
  let cmd_stats := tel.command_metrics command
  let alerts1 : List Alert :=
    if 10 ≤ dev_stats.total then
      let failure_rate := mkRat dev_stats.failure dev_stats.total
      (if mkRat 3 10 < failure_rate
       then [Alert.highFailureRate device dev_stats.failure dev_stats.total]
       else [])
    else []
  let consecutive_fails := consecFailCount dev_stats.status_history
  let alerts2 : List Alert :=
    if 5 ≤ consecutive_fails
    then [Alert.consecutiveFailures device consecutive_fails]
    else []
  let alerts3 : List Alert :=
    if 3 ≤ cmd_stats.devices_failed_on.card
    then [Alert.commandRegression command cmd_stats.devices_failed_on]
    else []
  alerts1 ++ alerts2 ++ alerts3

/-- Method `record_execution(device, command, status, duration_ms, ...)`:
returns the mutated state together with the returned value, which is the
alert list when any alert fired and `None` otherwise. `now` stands for
`datetime.now()` in seconds. -/
def record_execution (tel : CommandTelemetry) (device command : String)
    (status : ExecutionStatus) (duration_ms : Option Rat) (now : Int) :
    CommandTelemetry × Option (List Alert) :=
  let dm0 := tel.device_metrics device
  let dm1 := { dm0 with total := dm0.total + 1, last_execution := some now }
  let dm2 :=
    if status = .SUCCESS then
      { dm1 with
        success := dm1.success + 1,
        status_history := dm1.status_history ++ [("success", now)] }
    else
      { dm1 with
        failure := dm1.failure + 1,
        status_history := dm1.status_history ++ [(status.value, now)] }
  let dm3 :=
    match duration_ms with
    | none => dm2
    | some d =>
        let alpha : Rat := 3/10
        { dm2 with avg_duration_ms := alpha * d + (1 - alpha) * dm2.avg_duration_ms }
  let cutoff := now - tel.retention_seconds
  let dm4 := { dm3 with
    status_history := dm3.status_history.filter (fun p => cutoff < p.2) }
  let cm0 := tel.command_metrics command
  let cm1 := { cm0 with total := cm0.total + 1 }
  let cm2 :=
    if status = .SUCCESS then { cm1 with success := cm1.success + 1 }
    else
      { cm1 with
        failure := cm1.failure + 1,
        devices_failed_on := insert device cm1.devices_failed_on }
  let tel' := { tel with
    device_metrics := updFn tel.device_metrics device dm4,
    command_metrics := updFn tel.command_metrics command cm2 }
  let alerts := check_alerts tel' device command
  (tel', if alerts = [] then none else some alerts)

/-- One call of a telemetry scenario: the non-device arguments of
`record_execution`. -/
structure ExecCall where
  command : String
  status : ExecutionStatus
  duration : Option Rat
  now : Int

/-- Fold of `record_execution` calls for one device, keeping the state. -/
def recordMany (tel : CommandTelemetry) (device : String)
    (calls : List ExecCall) : CommandTelemetry :=
  calls.foldl
    (fun t c => (record_execution t device c.command c.status c.duration c.now).1)
    tel

/-! ## Concrete scenario states used by the claims -/

/-- Registry holding one device `R1` whose platform/OS metadata is `iosxe`,
so `_detect_vendor` classifies it as `cisco`. -/
def regR1 : DeviceRegistry :=
  register_device emptyRegistry "R1"
    { platform := some "iosxe", os := some "iosxe", dtype := some "router",
      aliasName := none, cliIp := none }

/-- Registry holding `R1` (cisco) and `J1` (juniper). -/
def regR1J1 : DeviceRegistry :=
  register_device regR1 "J1"
    { platform := some "junos", os := some "junos", dtype := some "router",
      aliasName := none, cliIp := none }

/-- A freshly constructed telemetry instance with the default retention of
3600 seconds (module-level `telemetry = CommandTelemetry()`). -/
def tel0 : CommandTelemetry := CommandTelemetry.start 3600

/-- State after `n` FAILURE executions of `show version` on `R1`, recorded at
one-second intervals. -/
def telR1fail (n : Nat) : CommandTelemetry :=
  (List.range n).foldl
    (fun t i => (record_execution t "R1" "show version" .FAILURE none (i : Int)).1)
    tel0

/-- State after `n` FAILURE executions of `show ip route` on `SW1`. -/
def telSW1fail (n : Nat) : CommandTelemetry :=
  (List.range n).foldl
    (fun t i => (record_execution t "SW1" "show ip route" .FAILURE none (i : Int)).1)
    tel0

/-- State after `ping 8.8.8.8` failed once on `R1` and once on `R2`. -/
def telPing2 : CommandTelemetry :=
  (record_execution
    (record_execution tel0 "R1" "ping 8.8.8.8" .FAILURE none 0).1
    "R2" "ping 8.8.8.8" .FAILURE none 1).1

/-- The single TIMEOUT call used by the C5 scenario. -/
def timeoutCall : ExecCall :=
  { command := "show version", status := ExecutionStatus.TIMEOUT,
    duration := none, now := 0 }

/-! ## Helper lemmas -/

theorem strContains_trans {a b c : String} (h1 : strContains b a = true)
    (h2 : strContains c b = true) : strContains c a = true := by
  unfold strContains at *
  exact decide_eq_true (List.IsInfix.trans (of_decide_eq_true h1) (of_decide_eq_true h2))

theorem alGet?_alSet_self {α : Type} (m : List (String × α)) (k : String)
    (v : α) : alGet? (alSet m k v) k = some v := by
  induction m with
  | nil => simp [alSet, alGet?]
  | cons p rest ih =>
      by_cases h : p.1 = k
      · simp [alSet, alGet?, h]
      · simp [alSet, alGet?, h, ih]

theorem alGet?_alSet_ne {α : Type} (m : List (String × α)) (k k' : String)
    (v : α) (h : k' ≠ k) : alGet? (alSet m k v) k' = alGet? m k' := by
  induction m with
  | nil => simp [alSet, alGet?, Ne.symm h]
  | cons p rest ih =>
      by_cases hp : p.1 = k
      · subst hp
        simp [alSet, alGet?, Ne.symm h]
      · by_cases hp' : p.1 = k'
        · simp [alSet, alGet?, hp, hp', h]
        · simp [alSet, alGet?, hp, hp', ih]

theorem alGetL_alPush_self (m : List (String × List String)) (k : String)
    (v : String) : alGetL (alPush m k v) k = alGetL m k ++ [v] := by
  induction m with
  | nil => simp [alPush, alGetL, alGet?]
  | cons p rest ih =>
      by_cases h : p.1 = k
      · simp [alPush, alGetL, alGet?, h]
      · have ih' := ih
        simp only [alGetL] at ih'
        simp [alPush, alGetL, alGet?, h, ih']

theorem alGetL_alPush_ne (m : List (String × List String)) (k k' v : String)
    (h : k' ≠ k) : alGetL (alPush m k v) k' = alGetL m k' := by
  induction m with
  | nil => simp [alPush, alGetL, alGet?, Ne.symm h]
  | cons p rest ih =>
      by_cases hp : p.1 = k
      · subst hp
        simp [alPush, alGetL, alGet?, Ne.symm h]
      · have ih' := ih
        simp only [alGetL] at ih'
        by_cases hp' : p.1 = k'
        · simp [alPush, alGetL, alGet?, hp, hp', h]
        · simp [alPush, alGetL, alGet?, hp, hp', ih']

theorem pickBest_ge_start (f : RequestIntent → Nat) (l : List RequestIntent) :
    ∀ cur, f cur ≤ f (pickBest f l cur) := by
  induction l with
  | nil => intro cur; simp [pickBest]
  | cons a rest ih =>
      intro cur
      simp only [pickBest]
      by_cases h : f cur < f a
      · rw [if_pos h]
        exact le_trans (le_of_lt h) (ih a)
      · rw [if_neg h]
        exact ih cur

theorem pickBest_ge_mem (f : RequestIntent → Nat) (l : List RequestIntent) :
    ∀ cur i, i ∈ l → f i ≤ f (pickBest f l cur) := by
  induction l with
  | nil => intro cur i hi; cases hi
  | cons a rest ih =>
      intro cur i hi
      simp only [pickBest]
      rcases List.mem_cons.mp hi with hia | hi'
      · by_cases h : f cur < f a
        · rw [if_pos h, hia]
          exact pickBest_ge_start f rest a
        · rw [if_neg h, hia]
          exact le_trans (Nat.le_of_not_lt h) (pickBest_ge_start f rest cur)
      · exact ih _ i hi'

theorem pickBest_cases (f : RequestIntent → Nat) (l : List RequestIntent) :
    ∀ cur, pickBest f l cur = cur
      ∨ (pickBest f l cur ∈ l ∧ f cur < f (pickBest f l cur)) := by
  induction l with
  | nil => intro cur; left; rfl
  | cons a rest ih =>
      intro cur
      simp only [pickBest]
      by_cases h : f cur < f a
      · rw [if_pos h]
        rcases ih a with h1 | ⟨h1, h2⟩
        · right
          exact ⟨by rw [h1]; exact List.mem_cons_self a rest, by rw [h1]; exact h⟩
        · right
          exact ⟨List.mem_cons.mpr (Or.inr h1), lt_trans h h2⟩
      · rw [if_neg h]
        rcases ih cur with h1 | ⟨h1, h2⟩
        · left
          exact h1
        · right
          exact ⟨List.mem_cons.mpr (Or.inr h1), h2⟩

theorem pickBest_tie (f : RequestIntent → Nat) (l : List RequestIntent) :
    ∀ cur, List.Pairwise (fun a b => intentRank a < intentRank b) (cur :: l) →
      ∀ i, (i = cur ∨ i ∈ l) → f i = f (pickBest f l cur) →
        intentRank (pickBest f l cur) ≤ intentRank i := by
  induction l with
  | nil =>
      intro cur _ i hi hf
      rcases hi with rfl | hi
      · exact le_refl _
      · cases hi
  | cons a rest ih =>
      intro cur hsorted i hi hf
      have hca : intentRank cur < intentRank a :=
        (List.pairwise_cons.mp hsorted).1 a (List.mem_cons_self a rest)
      have hcr : ∀ j ∈ rest, intentRank cur < intentRank j := fun j hj =>
        (List.pairwise_cons.mp hsorted).1 j (List.mem_cons.mpr (Or.inr hj))
      have har : ∀ j ∈ rest, intentRank a < intentRank j := fun j hj =>
        (List.pairwise_cons.mp ((List.pairwise_cons.mp hsorted).2)).1 j hj
      have hrest : List.Pairwise (fun x y => intentRank x < intentRank y) rest :=
        (List.pairwise_cons.mp ((List.pairwise_cons.mp hsorted).2)).2
      simp only [pickBest] at hf ⊢
      by_cases h : f cur < f a
      · have hsorted' :
            List.Pairwise (fun x y => intentRank x < intentRank y) (a :: rest) :=
          List.pairwise_cons.mpr ⟨har, hrest⟩
        rw [if_pos h] at hf ⊢
        rcases hi with hic | hi'
        · exfalso
          rw [hic] at hf
          have hge : f a ≤ f (pickBest f rest a) := pickBest_ge_start f rest a
          omega
        · rcases List.mem_cons.mp hi' with hia | hi''
          · rw [hia] at hf ⊢
            exact ih a hsorted' a (Or.inl rfl) hf
          · exact ih a hsorted' i (Or.inr hi'') hf
      · have hsorted' :
            List.Pairwise (fun x y => intentRank x < intentRank y) (cur :: rest) :=
          List.pairwise_cons.mpr ⟨hcr, hrest⟩
        rw [if_neg h] at hf ⊢
        rcases hi with hic | hi'
        · rw [hic] at hf ⊢
          exact ih cur hsorted' cur (Or.inl rfl) hf
        · rcases List.mem_cons.mp hi' with hia | hi''
          · rw [hia] at hf ⊢
            rcases pickBest_cases f rest cur with hc | ⟨_, hlt⟩
            · rw [hc]
              exact le_of_lt hca
            · exfalso
              have hle : f a ≤ f cur := Nat.le_of_not_lt h
              omega
          · exact ih cur hsorted' i (Or.inr hi'') hf

theorem char_toNat_ofNat_lt (n : Nat) (h : n < 55296) :
    (Char.ofNat n).toNat = n := by
  have hv : n.isValidChar := Or.inl h
  rw [Char.ofNat, dif_pos hv]
  simp [Char.ofNatAux, Char.toNat, UInt32.toNat]

theorem lowerChar_idem (c : Char) : (c.toLower).toLower = c.toLower := by
  by_cases h : c.toNat ≥ 65 ∧ c.toNat ≤ 90
  · have h1 : c.toLower = Char.ofNat (c.toNat + 32) := by
      unfold Char.toLower
      exact if_pos h
    have h2 : (Char.ofNat (c.toNat + 32)).toNat = c.toNat + 32 :=
      char_toNat_ofNat_lt _ (by omega)
    rw [h1]
    unfold Char.toLower
    rw [if_neg (by omega)]
  · unfold Char.toLower
    rw [if_neg h, if_neg h]

theorem lowerStr_idem (s : String) : lowerStr (lowerStr s) = lowerStr s := by
  have hmap : ∀ l : List Char,
      (l.map Char.toLower).map Char.toLower = l.map Char.toLower := by
    intro l
    induction l with
    | nil => rfl
    | cons c rest ih => simp [ih, lowerChar_idem c]
  simp [lowerStr, hmap]

/-- Claim C1, counterexample: the claim asserts `_detect_vendor` returns
`cisco` for every platform containing `iosxe` regardless of the OS field,
but the Juniper OS rule runs first in the cascade: with platform `iosxe` and
OS `junos` the function returns `juniper`. -/
theorem C1_counterexample :
    strContains "iosxe" "iosxe" = true
    ∧ detect_vendor "iosxe" "junos" "dev1" = "juniper"
    ∧ detect_vendor "iosxe" "junos" "dev1" ≠ "cisco" := by
  decide

/-- Claim C1 (amended): for every device whose platform contains `iosxe`,
`_detect_vendor` returns `cisco` for every OS field and device name,
provided no rule earlier in the cascade fires first: the platform contains
none of the Juniper markers (`junos`, `juniper`, `vsrx`, `srx`, `mx`, `ex`)
and the OS does not contain `junos`. -/
theorem C1_thm (platform os_type name : String)
    (hio : strContains platform "iosxe" = true)
    (hjun : ∀ kw ∈ ["junos", "juniper", "vsrx", "srx", "mx", "ex"],
      strContains platform kw = false)
    (hos : strContains os_type "junos" = false) :
    detect_vendor platform os_type name = "cisco" := by
  have hios : strContains platform "ios" = true :=
    strContains_trans (by decide) hio
  have h1 : (["junos", "juniper", "vsrx", "srx", "mx", "ex"].any
      (fun x => strContains platform x)) = false := by
    simp only [List.any_eq_false]
    intro x hx
    simp [hjun x hx]
  have h2 : (["ios", "iosxe", "iosxr", "csr", "nxos", "cisco"].any
      (fun x => strContains platform x)) = true := by
    simp only [List.any_eq_true]
    exact ⟨"ios", by simp, hios⟩
  unfold detect_vendor
  simp [h1, h2, hos]

/-- Claim C1, witness: the amended theorem applied to the concrete device
`R9` with platform `iosxe` and OS `ios`. -/
theorem C1_witness : detect_vendor "iosxe" "ios" "R9" = "cisco" :=
  C1_thm "iosxe" "ios" "R9" (by decide) (by decide) (by decide)

/-- Claim C10: `register_device` stores the platform and OS lower-cased and
runs vendor detection on exactly those lower-cased values, while the
registry key and the stored name keep the original case of the device name;
consequently two configurations whose platform and OS agree up to case
yield the same detected vendor. -/
theorem C10_thm (reg : DeviceRegistry) (name : String) (cfg : DeviceConfig) :
    (∀ d, alGet? (register_device reg name cfg).devices name = some d →
        lowerStr d.platform = d.platform
        ∧ lowerStr d.os = d.os
        ∧ d.platform = lowerStr (cfg.platform.getD "unknown")
        ∧ d.os = lowerStr (cfg.os.getD "unknown")
        ∧ d.vendor = detect_vendor d.platform d.os name
        ∧ d.name = name)
    ∧ (alGet? (register_device reg name cfg).devices name).isSome = true
    ∧ (∀ k, k ≠ name → alGet? (register_device reg name cfg).devices k
        = alGet? reg.devices k)
    ∧ (∀ cfg2 : DeviceConfig,
        lowerStr (cfg.platform.getD "unknown")
          = lowerStr (cfg2.platform.getD "unknown") →
        lowerStr (cfg.os.getD "unknown") = lowerStr (cfg2.os.getD "unknown") →
        ∀ d d2, alGet? (register_device reg name cfg).devices name = some d →
          alGet? (register_device reg name cfg2).devices name = some d2 →
          d.vendor = d2.vendor) := by
  have hself : ∀ cfg' : DeviceConfig,
      alGet? (register_device reg name cfg').devices name = some
        { name := name,
          vendor := detect_vendor (lowerStr (cfg'.platform.getD "unknown"))
            (lowerStr (cfg'.os.getD "unknown")) name,
          platform := lowerStr (cfg'.platform.getD "unknown"),
          os := lowerStr (cfg'.os.getD "unknown"),
          dtype := cfg'.dtype.getD "unknown",
          aliasName := cfg'.aliasName.getD "",
          ip := cfg'.cliIp.getD "unknown" } := by
    intro cfg'
    unfold register_device
    exact alGet?_alSet_self _ _ _
  refine ⟨?_, ?_, ?_, ?_⟩
  · intro d hd
    rw [hself cfg] at hd
    injection hd with hd
    subst hd
    exact ⟨lowerStr_idem _, lowerStr_idem _, rfl, rfl, rfl, rfl⟩
  · rw [hself cfg]
    rfl
  · intro k hk
    unfold register_device
    exact alGet?_alSet_ne _ _ _ _ hk
  · intro cfg2 hp ho d d2 hd hd2
    rw [hself cfg] at hd
    rw [hself cfg2] at hd2
    injection hd with hd
    injection hd2 with hd2
    subst hd
    subst hd2
    simp only [hp, ho]

/-- Claim C10, witness: registering `R1` with mixed-case metadata stores the
lower-cased platform. -/
theorem C10_witness :
    ∀ d, alGet? (register_device emptyRegistry "R1"
        { platform := some "IOSXE", os := some "IosXe", dtype := none,
          aliasName := none, cliIp := none }).devices "R1" = some d →
      lowerStr d.platform = d.platform :=
  fun d hd =>
    ((C10_thm emptyRegistry "R1"
      { platform := some "IOSXE", os := some "IosXe", dtype := none,
        aliasName := none, cliIp := none }).1 d hd).1

theorem vendorsOf_mem (reg : DeviceRegistry) (devs : List String) :
    ∀ v ∈ vendorsOf reg devs, ∃ d ∈ devs, get_device_vendor reg d = some v := by
  have haux : ∀ (l : List String) (acc : List String) (v : String),
      v ∈ l.foldl (fun acc d =>
        match alGet? reg.devices d with
        | none => acc
        | some dev => if dev.vendor ∈ acc then acc else acc ++ [dev.vendor]) acc →
      v ∈ acc ∨ ∃ d ∈ l, get_device_vendor reg d = some v := by
    intro l
    induction l with
    | nil => intro acc v hv; exact Or.inl hv
    | cons d rest ih =>
        intro acc v hv
        simp only [List.foldl_cons] at hv
        rcases ih _ v hv with hacc | ⟨d', hd', hvd⟩
        · cases hdev : alGet? reg.devices d with
          | none =>
              simp only [hdev] at hacc
              exact Or.inl hacc
          | some dev =>
              simp only [hdev] at hacc
              by_cases hmem : dev.vendor ∈ acc
              · rw [if_pos hmem] at hacc
                exact Or.inl hacc
              · rw [if_neg hmem] at hacc
                rcases List.mem_append.mp hacc with h1 | h2
                · exact Or.inl h1
                · right
                  refine ⟨d, List.mem_cons_self d rest, ?_⟩
                  rw [List.mem_singleton.mp h2]
                  simp [get_device_vendor, hdev]
        · exact Or.inr ⟨d', List.mem_cons.mpr (Or.inr hd'), hvd⟩
  intro v hv
  rcases haux devs [] v hv with h | h
  · cases h
  · exact h

theorem vendorsOf_eq_nil_iff (reg : DeviceRegistry) (devs : List String) :
    vendorsOf reg devs = [] ↔ ∀ d ∈ devs, alGet? reg.devices d = none := by
  have haux : ∀ (l : List String) (acc : List String),
      (l.foldl (fun acc d =>
        match alGet? reg.devices d with
        | none => acc
        | some dev => if dev.vendor ∈ acc then acc else acc ++ [dev.vendor]) acc = [])
      ↔ (acc = [] ∧ ∀ d ∈ l, alGet? reg.devices d = none) := by
    intro l
    induction l with
    | nil => intro acc; simp
    | cons d rest ih =>
        intro acc
        simp only [List.foldl_cons]
        rw [ih]
        cases hdev : alGet? reg.devices d with
        | none =>
            simp only [hdev]
            constructor
            · rintro ⟨h1, h2⟩
              exact ⟨h1, by
                intro d' hd'
                rcases List.mem_cons.mp hd' with h | h
                · rw [h]; exact hdev
                · exact h2 d' h⟩
            · rintro ⟨h1, h2⟩
              exact ⟨h1, fun d' hd' => h2 d' (List.mem_cons.mpr (Or.inr hd'))⟩
        | some dev =>
            simp only [hdev]
            constructor
            · rintro ⟨h1, _⟩
              exfalso
              by_cases hmem : dev.vendor ∈ acc
              · rw [if_pos hmem] at h1
                rw [h1] at hmem
                cases hmem
              · rw [if_neg hmem] at h1
                simpa using congrArg List.length h1
            · rintro ⟨_, h2⟩
              exfalso
              have := h2 d (List.mem_cons_self d rest)
              rw [hdev] at this
              cases this
  unfold vendorsOf
  rw [haux devs []]
  simp

/-- Claim C4, counterexample: with `R1` (cisco) and `J1` (juniper) both
mentioned, the claimed result is the two-element vendor set, but
`get_routing_path` returns a single vendor popped from that set, which can
represent at most a singleton, whichever element `set.pop` removes. -/
theorem C4_counterexample :
    routingVendorSet regR1J1 "show R1 and J1" = ({"cisco", "juniper"} : Finset String)
    ∧ optionToFinset (get_routing_path regR1J1 "show R1 and J1").2
        ≠ routingVendorSet regR1J1 "show R1 and J1" := by
  decide

/-- Claim C4 (amended): `get_routing_path` performs the claimed case
analysis, except that with explicit devices found it returns a single vendor
popped from the set of vendors of the resolved devices (`None` exactly when
that set is empty), not the whole set. The two concrete routing scenarios of
the claim hold as stated. -/
theorem C4_thm (reg : DeviceRegistry) (text : String) :
    (extract_devices_from_text reg text ≠ [] →
        (get_routing_path reg text).1 = some (extract_devices_from_text reg text)
        ∧ (∀ v, (get_routing_path reg text).2 = some v → v ∈ routingVendorSet reg text)
        ∧ ((get_routing_path reg text).2 = none ↔ routingVendorSet reg text = ∅))
    ∧ (extract_devices_from_text reg text = [] →
        get_routing_path reg text = (none, get_vendor_from_keywords text))
    ∧ get_routing_path regR1 "show interfaces on R1" = (some ["R1"], some "cisco")
    ∧ get_routing_path regR1 "check junos uptime" = (none, some "juniper") := by
  refine ⟨?_, ?_, by decide, by decide⟩
  · intro hne
    unfold get_routing_path
    rw [if_pos hne]
    refine ⟨rfl, ?_, ?_⟩
    · intro v hv
      simp only at hv
      have hmem : v ∈ vendorsOf reg (extract_devices_from_text reg text) :=
        List.mem_of_mem_head? hv
      rcases vendorsOf_mem reg _ v hmem with ⟨d, hd, hvd⟩
      unfold routingVendorSet
      rw [List.mem_toFinset, List.mem_filterMap]
      exact ⟨d, hd, hvd⟩
    · simp only [List.head?_eq_none_iff]
      rw [vendorsOf_eq_nil_iff]
      unfold routingVendorSet
      rw [List.toFinset_eq_empty_iff, List.filterMap_eq_nil_iff]
      constructor
      · intro h d hd
        simp [get_device_vendor, h d hd]
      · intro h d hd
        have := h d hd
        simp only [get_device_vendor, Option.map_eq_none'] at this
        exact this
  · intro hnil
    unfold get_routing_path
    rw [if_neg (by simp [hnil])]
    by_cases hkw : (get_vendor_from_keywords text).isSome
    · rw [if_pos hkw]
    · rw [if_neg hkw]
      rw [Option.not_isSome_iff_eq_none] at hkw
      rw [hkw]

/-- Claim C4, witness: the amended theorem applied to the registry holding
only `R1` and the text of the first routing scenario. -/
theorem C4_witness :
    (get_routing_path regR1 "show interfaces on R1").1
      = some (extract_devices_from_text regR1 "show interfaces on R1") :=
  ((C4_thm regR1 "show interfaces on R1").1 (by decide)).1

theorem categorize_getL (reg : DeviceRegistry) (names : List String) (s : String) :
    alGetL (categorize_devices_by_stack reg names) s
      = names.filter (fun n => decide (n ≠ "") && decide (get_stack_for_device reg n = s)) := by
  have haux : ∀ (l : List String) (acc : List (String × List String)),
      alGetL (l.foldl (fun acc n =>
          if n = "" then acc else alPush acc (get_stack_for_device reg n) n) acc) s
        = alGetL acc s
          ++ l.filter (fun n => decide (n ≠ "") && decide (get_stack_for_device reg n = s)) := by
    intro l
    induction l with
    | nil => intro acc; simp
    | cons n rest ih =>
        intro acc
        simp only [List.foldl_cons]
        by_cases hn : n = ""
        · rw [if_pos hn, ih]
          simp [hn]
        · rw [if_neg hn]
          by_cases hs : get_stack_for_device reg n = s
          · rw [ih]
            rw [← hs, alGetL_alPush_self]
            simp [hn, hs]
          · rw [ih]
            rw [alGetL_alPush_ne _ _ _ _ (fun h => hs h.symm)]
            simp [hn, hs]
  unfold categorize_devices_by_stack
  rw [haux names []]
  simp [alGetL, alGet?]

/-- Claim C9: `categorize_devices_by_stack` partitions its input: the groups
are pairwise disjoint; a name lands in some group exactly when it is a
non-empty member of the input, so under the all-non-empty hypothesis the
union of the groups is the deduplicated input; a non-empty name with no
registered device still lands in the default `pyats` group, so only
empty/falsy names are dropped. -/
theorem C9_thm (reg : DeviceRegistry) (names : List String) :
    (∀ s s' n, n ∈ alGetL (categorize_devices_by_stack reg names) s →
        n ∈ alGetL (categorize_devices_by_stack reg names) s' → s = s')
    ∧ (∀ n, (∃ s, n ∈ alGetL (categorize_devices_by_stack reg names) s)
        ↔ (n ∈ names ∧ n ≠ ""))
    ∧ ((∀ n ∈ names, n ≠ "") →
        ∀ n, (∃ s, n ∈ alGetL (categorize_devices_by_stack reg names) s)
          ↔ n ∈ names.dedup)
    ∧ (∀ n ∈ names, n ≠ "" → alGet? reg.devices n = none →
        n ∈ alGetL (categorize_devices_by_stack reg names) "pyats") := by
  have hmem : ∀ n s, n ∈ alGetL (categorize_devices_by_stack reg names) s
      ↔ (n ∈ names ∧ n ≠ "" ∧ get_stack_for_device reg n = s) := by
    intro n s
    rw [categorize_getL]
    simp [List.mem_filter, and_assoc]
  refine ⟨?_, ?_, ?_, ?_⟩
  · intro s s' n hs hs'
    have h1 := (hmem n s).mp hs
    have h2 := (hmem n s').mp hs'
    rw [← h1.2.2, ← h2.2.2]
  · intro n
    constructor
    · rintro ⟨s, hsmem⟩
      have h := (hmem n s).mp hsmem
      exact ⟨h.1, h.2.1⟩
    · rintro ⟨h1, h2⟩
      exact ⟨get_stack_for_device reg n, (hmem n _).mpr ⟨h1, h2, rfl⟩⟩
  · intro hall n
    rw [List.mem_dedup]
    constructor
    · rintro ⟨s, hsmem⟩
      exact ((hmem n s).mp hsmem).1
    · intro h1
      exact ⟨get_stack_for_device reg n, (hmem n _).mpr ⟨h1, hall n h1, rfl⟩⟩
  · intro n hn hne hnone
    refine (hmem n _).mpr ⟨hn, hne, ?_⟩
    simp [get_stack_for_device, get_device_vendor, hnone, get_stack_for_vendor]

/-- Claim C9, witness: categorizing `[R1, X]` over the registry that knows
only `R1`; the unregistered non-empty name `X` lands in the default `pyats`
group. -/
theorem C9_witness :
    "X" ∈ alGetL (categorize_devices_by_stack regR1 ["R1", "X"]) "pyats" :=
  (C9_thm regR1 ["R1", "X"]).2.2.2 "X" (by decide) (by decide) (by decide)

theorem mem_allIntents (i : RequestIntent) : i ∈ allIntents := by
  cases i <;> simp [allIntents]

theorem keywords_method (q : String) :
    (classify_with_keywords q).method = "keywords" := by
  unfold classify_with_keywords
  by_cases h : intentScore q (bestKeywordIntent q) = 0
  · rw [if_pos h]
  · rw [if_neg h]

theorem bestKeywordIntent_ge (q : String) (i : RequestIntent) :
    intentScore q i ≤ intentScore q (bestKeywordIntent q) := by
  unfold bestKeywordIntent
  cases i with
  | KNOWLEDGE => exact pickBest_ge_start _ _ _
  | NETWORK_DEVICE => exact pickBest_ge_mem _ _ _ _ (by simp)
  | INFRASTRUCTURE => exact pickBest_ge_mem _ _ _ _ (by simp)
  | SERVICENOW => exact pickBest_ge_mem _ _ _ _ (by simp)
  | SEARCH => exact pickBest_ge_mem _ _ _ _ (by simp)
  | OTHER => exact pickBest_ge_mem _ _ _ _ (by simp)

theorem bestKeywordIntent_tie (q : String) (i : RequestIntent)
    (hf : intentScore q i = intentScore q (bestKeywordIntent q)) :
    intentRank (bestKeywordIntent q) ≤ intentRank i := by
  unfold bestKeywordIntent at hf ⊢
  refine pickBest_tie _ _ _ ?_ i ?_ hf
  · decide
  · cases i <;> simp

theorem totalScore_zero_iff (q : String) :
    totalScore q = 0 ↔ intentScore q (bestKeywordIntent q) = 0 := by
  constructor
  · intro h
    simp only [totalScore, allIntents, List.map_cons, List.map_nil,
      List.sum_cons, List.sum_nil] at h
    cases hb : bestKeywordIntent q <;> omega
  · intro h
    have h1 := bestKeywordIntent_ge q .KNOWLEDGE
    have h2 := bestKeywordIntent_ge q .NETWORK_DEVICE
    have h3 := bestKeywordIntent_ge q .INFRASTRUCTURE
    have h4 := bestKeywordIntent_ge q .SERVICENOW
    have h5 := bestKeywordIntent_ge q .SEARCH
    have h6 := bestKeywordIntent_ge q .OTHER
    simp only [totalScore, allIntents, List.map_cons, List.map_nil,
      List.sum_cons, List.sum_nil]
    omega

/-- Claim C2: `classify` is a total function (the embedding of a method that
never raises), its result intent always lies in the closed six-element
enum, and whenever the backend collaborator errors on every call, transport
and parse failures included, or no client is available at all, the result
carries the `keywords` provenance tag. -/
theorem C2_thm (client : Option (String → LlmOutcome)) (q : String) :
    (classify client q).intent ∈ allIntents
    ∧ (client = none → (classify client q).method = "keywords")
    ∧ (∀ b, client = some b → (∀ t, (b t).isError = true) →
        (classify client q).method = "keywords") := by
  refine ⟨mem_allIntents _, ?_, ?_⟩
  · rintro rfl
    exact keywords_method q
  · rintro b rfl herr
    have hq := herr q
    unfold classify classify_with_llm
    cases hbq : b q with
    | raised => simp only [hbq]; exact keywords_method q
    | badJson => simp only [hbq]; exact keywords_method q
    | parsed i c r =>
        rw [hbq] at hq
        simp [LlmOutcome.isError] at hq

/-- Claim C2, witness: a backend raising on every call yields the keyword
provenance tag. -/
theorem C2_witness :
    (classify (some failingBackend) "show version on R1").method = "keywords" :=
  (C2_thm (some failingBackend) "show version on R1").2.2
    failingBackend rfl (fun _ => rfl)

/-- Claim C3: the keyword fallback returns an intent of maximal score; when
any keyword matched, ties of the maximal score resolve to the intent of
least enum rank and the confidence is the winning score over the sum of all
scores; when no keyword matched the intent is `OTHER` with confidence
exactly 3/10. Determinism is the final conjunct: in this pure embedding the
function returns identical results on identical input by reflexivity. -/
theorem C3_thm (q : String) :
    (classify_with_keywords q).method = "keywords"
    ∧ (∀ i, intentScore q i ≤ intentScore q (classify_with_keywords q).intent)
    ∧ (totalScore q = 0 →
        (classify_with_keywords q).intent = RequestIntent.OTHER
        ∧ (classify_with_keywords q).confidence = (3 : Rat) / 10)
    ∧ (totalScore q ≠ 0 →
        (classify_with_keywords q).intent = bestKeywordIntent q
        ∧ (∀ i, intentScore q i = intentScore q (classify_with_keywords q).intent →
            intentRank (classify_with_keywords q).intent ≤ intentRank i)
        ∧ (classify_with_keywords q).confidence
            = (intentScore q (classify_with_keywords q).intent : Rat) / (totalScore q : Rat))
    ∧ classify_with_keywords q = classify_with_keywords q := by
  by_cases h0 : intentScore q (bestKeywordIntent q) = 0
  · have ht : totalScore q = 0 := (totalScore_zero_iff q).mpr h0
    have hc0 : classify_with_keywords q =
        { intent := RequestIntent.OTHER, confidence := mkRat 3 10,
          reasoning := "Keyword match: " ++ intentValue RequestIntent.OTHER,
          method := "keywords" } := by
      unfold classify_with_keywords
      rw [if_pos h0]
    refine ⟨by rw [hc0], ?_, fun _ => ⟨by rw [hc0], ?_⟩, fun h => absurd ht h, rfl⟩
    · intro i
      rw [hc0]
      have hi := bestKeywordIntent_ge q i
      have hO : intentScore q RequestIntent.OTHER = 0 := rfl
      simp only [hO]
      omega
    · rw [hc0]
      rw [show ((3 : Int) : Int) = ((3 : Nat) : Int) from rfl] at *
      rw [Rat.mkRat_eq_div]
      norm_num
  · have ht : totalScore q ≠ 0 := fun hh => h0 ((totalScore_zero_iff q).mp hh)
    have hcb : classify_with_keywords q =
        { intent := bestKeywordIntent q,
          confidence := mkRat (intentScore q (bestKeywordIntent q)) (totalScore q),
          reasoning := "Keyword match: " ++ intentValue (bestKeywordIntent q),
          method := "keywords" } := by
      unfold classify_with_keywords
      rw [if_neg h0]
    refine ⟨by rw [hcb], ?_, fun h => absurd h ht, fun _ => ⟨by rw [hcb], ?_, ?_⟩, rfl⟩
    · intro i
      rw [hcb]
      exact bestKeywordIntent_ge q i
    · intro i hi
      rw [hcb] at hi ⊢
      exact bestKeywordIntent_tie q i hi
    · rw [hcb]
      rw [Rat.mkRat_eq_div]
      push_cast
      ring

theorem mem_check_alerts_hfr (tel : CommandTelemetry) (d c : String) (f t : Nat) :
    Alert.highFailureRate d f t ∈ check_alerts tel d c
      ↔ (f = (tel.device_metrics d).failure ∧ t = (tel.device_metrics d).total
          ∧ 10 ≤ (tel.device_metrics d).total
          ∧ mkRat 3 10
              < mkRat ((tel.device_metrics d).failure) ((tel.device_metrics d).total)) := by
  simp only [check_alerts, List.mem_append]
  constructor
  · intro h
    rcases h with (h1 | h2) | h3
    · split at h1
      · split at h1
        · simp only [List.mem_singleton, Alert.highFailureRate.injEq] at h1
          exact ⟨h1.2.1, h1.2.2, by assumption, by assumption⟩
        · simp at h1
      · simp at h1
    · split at h2 <;> simp at h2
    · split at h3 <;> simp at h3
  · rintro ⟨rfl, rfl, h10, hrate⟩
    left; left
    rw [if_pos h10, if_pos hrate]
    simp

theorem mem_check_alerts_consec (tel : CommandTelemetry) (d c : String) (k : Nat) :
    Alert.consecutiveFailures d k ∈ check_alerts tel d c
      ↔ (k = consecFailCount (tel.device_metrics d).status_history
          ∧ 5 ≤ consecFailCount (tel.device_metrics d).status_history) := by
  simp only [check_alerts, List.mem_append]
  constructor
  · intro h
    rcases h with (h1 | h2) | h3
    · split at h1
      · split at h1 <;> simp at h1
      · simp at h1
    · split at h2
      · simp only [List.mem_singleton, Alert.consecutiveFailures.injEq] at h2
        exact ⟨h2.2, by assumption⟩
      · simp at h2
    · split at h3 <;> simp at h3
  · rintro ⟨rfl, h5⟩
    left; right
    rw [if_pos h5]
    simp

theorem mem_check_alerts_regression (tel : CommandTelemetry) (d c : String)
    (ds : Finset String) :
    Alert.commandRegression c ds ∈ check_alerts tel d c
      ↔ (ds = (tel.command_metrics c).devices_failed_on
          ∧ 3 ≤ (tel.command_metrics c).devices_failed_on.card) := by
  simp only [check_alerts, List.mem_append]
  constructor
  · intro h
    rcases h with (h1 | h2) | h3
    · split at h1
      · split at h1 <;> simp at h1
      · simp at h1
    · split at h2 <;> simp at h2
    · split at h3
      · simp only [List.mem_singleton, Alert.commandRegression.injEq] at h3
        exact ⟨h3.2, by assumption⟩
      · simp at h3
  · rintro ⟨rfl, h3⟩
    right
    rw [if_pos h3]
    simp

theorem record_device_step (tel : CommandTelemetry) (device command : String)
    (status : ExecutionStatus) (dur : Option Rat) (now : Int) :
    ((record_execution tel device command status dur now).1.device_metrics device).total
      = (tel.device_metrics device).total + 1
    ∧ ((record_execution tel device command status dur now).1.device_metrics device).success
        + ((record_execution tel device command status dur now).1.device_metrics device).failure
      = (tel.device_metrics device).success + (tel.device_metrics device).failure + 1
    ∧ ((record_execution tel device command status dur now).1.device_metrics device).timeout
      = (tel.device_metrics device).timeout
    ∧ (status ≠ ExecutionStatus.SUCCESS →
        ((record_execution tel device command status dur now).1.device_metrics device).failure
          = (tel.device_metrics device).failure + 1
        ∧ ((record_execution tel device command status dur now).1.device_metrics device).success
          = (tel.device_metrics device).success)
    ∧ (status = ExecutionStatus.SUCCESS →
        ((record_execution tel device command status dur now).1.device_metrics device).success
          = (tel.device_metrics device).success + 1
        ∧ ((record_execution tel device command status dur now).1.device_metrics device).failure
          = (tel.device_metrics device).failure) := by
  by_cases hs : status = ExecutionStatus.SUCCESS
  · cases dur <;> simp [record_execution, updFn, hs] <;> omega
  · cases dur <;> simp [record_execution, updFn, hs] <;> omega

/-- Claim C5, counterexample: recording one TIMEOUT execution increments
`total` and `failure` but leaves the per-device `timeout` counter at 0: the
counter exists in the metrics dict but no code path ever increments it, so
the claimed increment does not happen. -/
theorem C5_counterexample :
    ((record_execution tel0 "R1" "show version" ExecutionStatus.TIMEOUT none 0).1.device_metrics "R1").total = 1
    ∧ ((record_execution tel0 "R1" "show version" ExecutionStatus.TIMEOUT none 0).1.device_metrics "R1").failure = 1
    ∧ ((record_execution tel0 "R1" "show version" ExecutionStatus.TIMEOUT none 0).1.device_metrics "R1").timeout = 0
    ∧ ¬ ((record_execution tel0 "R1" "show version" ExecutionStatus.TIMEOUT none 0).1.device_metrics "R1").timeout = 1 := by
  refine ⟨by decide, by decide, by decide, by decide⟩

/-- Claim C5 (amended): after any sequence of N `record_execution` calls for
a device D, `total` grows by N and `success + failure` grows by N, every
non-success status (TIMEOUT included) incrementing `failure`; the per-device
`timeout` counter, however, is never incremented and keeps its prior value
even for TIMEOUT statuses. -/
theorem C5_thm (tel : CommandTelemetry) (device : String)
    (calls : List ExecCall) :
    ((recordMany tel device calls).device_metrics device).total
      = (tel.device_metrics device).total + calls.length
    ∧ ((recordMany tel device calls).device_metrics device).success
        + ((recordMany tel device calls).device_metrics device).failure
      = (tel.device_metrics device).success + (tel.device_metrics device).failure
          + calls.length
    ∧ ((recordMany tel device calls).device_metrics device).timeout
      = (tel.device_metrics device).timeout
    ∧ (∀ (t : CommandTelemetry) (c : ExecCall),
        c.status ≠ ExecutionStatus.SUCCESS →
        ((record_execution t device c.command c.status c.duration c.now).1.device_metrics device).failure
          = (t.device_metrics device).failure + 1) := by
  have hind : ∀ (l : List ExecCall) (t : CommandTelemetry),
      ((recordMany t device l).device_metrics device).total
        = (t.device_metrics device).total + l.length
      ∧ ((recordMany t device l).device_metrics device).success
          + ((recordMany t device l).device_metrics device).failure
        = (t.device_metrics device).success + (t.device_metrics device).failure + l.length
      ∧ ((recordMany t device l).device_metrics device).timeout
        = (t.device_metrics device).timeout := by
    intro l
    induction l with
    | nil => intro t; simp [recordMany]
    | cons c rest ih =>
        intro t
        have hstep := record_device_step t device c.command c.status c.duration c.now
        have hrest := ih (record_execution t device c.command c.status c.duration c.now).1
        simp only [recordMany, List.foldl_cons] at hrest ⊢
        obtain ⟨hr1, hr2, hr3⟩ := hrest
        obtain ⟨hs1, hs2, hs3, _, _⟩ := hstep
        refine ⟨by rw [hr1, hs1]; simp [List.length_cons]; omega, ?_, by rw [hr3, hs3]⟩
        rw [hr2, hs2]
        simp [List.length_cons]
        omega
  obtain ⟨h1, h2, h3⟩ := hind calls tel
  exact ⟨h1, h2, h3, fun t c hc =>
    ((record_device_step t device c.command c.status c.duration c.now).2.2.2.1 hc).1⟩

/-- Claim C5, witness: the amended theorem applied to a single TIMEOUT call
on a fresh telemetry instance. -/
theorem C5_witness :
    ((recordMany tel0 "R1" [timeoutCall]).device_metrics "R1").total
      = (tel0.device_metrics "R1").total + 1
    ∧ ((record_execution tel0 "R1" timeoutCall.command timeoutCall.status
          timeoutCall.duration timeoutCall.now).1.device_metrics "R1").failure
      = (tel0.device_metrics "R1").failure + 1 :=
  ⟨(C5_thm tel0 "R1" [timeoutCall]).1,
   (C5_thm tel0 "R1" [timeoutCall]).2.2.2 tel0 timeoutCall (by decide)⟩

theorem mkRat_natCast_div (f t : Nat) :
    (mkRat f t : Rat) = (f : Rat) / (t : Rat) := by
  rw [Rat.mkRat_eq_div]
  push_cast
  ring

/-- Claim C6: the high-failure-rate alert fires exactly when the device has
at least 10 recorded executions and `failure/total` is strictly greater than
3/10; consequently the 10th consecutive FAILURE record for `R1` returns an
alert list containing the HIGH FAILURE RATE alert (plus the consecutive
failures alert the streak also triggers). -/
theorem C6_thm :
    (∀ (tel : CommandTelemetry) (d c : String),
        (Alert.highFailureRate d (tel.device_metrics d).failure
            (tel.device_metrics d).total ∈ check_alerts tel d c)
          ↔ (10 ≤ (tel.device_metrics d).total
              ∧ (3 : Rat) / 10
                < ((tel.device_metrics d).failure : Rat)
                    / ((tel.device_metrics d).total : Rat)))
    ∧ (record_execution (telR1fail 9) "R1" "show version"
          ExecutionStatus.FAILURE none 9).2
        = some [Alert.highFailureRate "R1" 10 10,
                Alert.consecutiveFailures "R1" 10]
    ∧ (Alert.highFailureRate "R1" 10 10).msgTag = "HIGH FAILURE RATE" := by
  refine ⟨?_, by decide, by decide⟩
  intro tel d c
  rw [mem_check_alerts_hfr]
  have h310 : (mkRat 3 10 : Rat) = (3 : Rat) / 10 := by
    rw [Rat.mkRat_eq_div]
    norm_num
  rw [h310, mkRat_natCast_div]
  simp

/-- Claim C6, witness: the alert-condition equivalence applied to the state
after ten FAILURE records on `R1`. -/
theorem C6_witness :
    10 ≤ ((telR1fail 10).device_metrics "R1").total
    ∧ (3 : Rat) / 10
      < (((telR1fail 10).device_metrics "R1").failure : Rat)
          / (((telR1fail 10).device_metrics "R1").total : Rat) :=
  (C6_thm.1 (telR1fail 10) "R1" "show version").mp (by decide)

/-- Claim C7: the consecutive-failures alert counts the streak of
non-success statuses over the last (at most) 10 history entries, newest
first, stopping at the first success, and fires exactly when the streak is
at least 5; the count depends only on those entries; a recorded SUCCESS
resets the streak to 0; and the 5th consecutive FAILURE on `SW1` returns the
CONSECUTIVE FAILURES alert. -/
theorem C7_thm :
    (∀ (tel : CommandTelemetry) (d c : String),
        ((∃ k, Alert.consecutiveFailures d k ∈ check_alerts tel d c)
          ↔ 5 ≤ consecFailCount (tel.device_metrics d).status_history))
    ∧ (∀ h1 h2 : List (String × Int),
        h1.reverse.take 10 = h2.reverse.take 10 →
        consecFailCount h1 = consecFailCount h2)
    ∧ (∀ (tel : CommandTelemetry) (d c : String) (dur : Option Rat) (now : Int),
        0 < tel.retention_seconds →
        consecFailCount
          (((record_execution tel d c ExecutionStatus.SUCCESS dur now).1.device_metrics d).status_history)
          = 0)
    ∧ (record_execution (telSW1fail 4) "SW1" "show ip route"
          ExecutionStatus.FAILURE none 4).2
        = some [Alert.consecutiveFailures "SW1" 5]
    ∧ (Alert.consecutiveFailures "SW1" 5).msgTag = "CONSECUTIVE FAILURES" := by
  refine ⟨?_, ?_, ?_, by decide, by decide⟩
  · intro tel d c
    constructor
    · rintro ⟨k, hk⟩
      exact ((mem_check_alerts_consec tel d c k).mp hk).2
    · intro h5
      exact ⟨consecFailCount (tel.device_metrics d).status_history,
        (mem_check_alerts_consec tel d c _).mpr ⟨rfl, h5⟩⟩
  · intro h1 h2 heq
    unfold consecFailCount
    rw [heq]
  · intro tel d c dur now hret
    have hc : now - tel.retention_seconds < now := by omega
    have hhist :
        ((record_execution tel d c ExecutionStatus.SUCCESS dur now).1.device_metrics d).status_history
        = ((tel.device_metrics d).status_history.filter
            (fun p => now - tel.retention_seconds < p.2)) ++ [("success", now)] := by
      cases dur <;> simp [record_execution, updFn, List.filter_append, hc]
    rw [hhist]
    simp [consecFailCount]

/-- Claim C7, witness: a SUCCESS record on a fresh default-retention
instance resets the streak to 0. -/
theorem C7_witness :
    consecFailCount
      (((record_execution tel0 "SW1" "show ip route" ExecutionStatus.SUCCESS
          none 0).1.device_metrics "SW1").status_history) = 0 :=
  C7_thm.2.2.1 tel0 "SW1" "show ip route" none 0 (by decide)

/-- Claim C8: the command-regression alert fires exactly when the command
has failed on at least 3 distinct devices; the failed-on collection is a
set, grown by exactly the failing device on each non-success record, never
shrunk, and unchanged in cardinality when the same device fails again; the
third distinct device failing `ping 8.8.8.8` returns the COMMAND REGRESSION
alert. -/
theorem C8_thm :
    (∀ (tel : CommandTelemetry) (d c : String),
        (Alert.commandRegression c (tel.command_metrics c).devices_failed_on
            ∈ check_alerts tel d c)
          ↔ 3 ≤ (tel.command_metrics c).devices_failed_on.card)
    ∧ (∀ (tel : CommandTelemetry) (d c : String) (status : ExecutionStatus)
          (dur : Option Rat) (now : Int),
        (status ≠ ExecutionStatus.SUCCESS →
          ((record_execution tel d c status dur now).1.command_metrics c).devices_failed_on
            = insert d (tel.command_metrics c).devices_failed_on)
        ∧ (status = ExecutionStatus.SUCCESS →
          ((record_execution tel d c status dur now).1.command_metrics c).devices_failed_on
            = (tel.command_metrics c).devices_failed_on)
        ∧ (tel.command_metrics c).devices_failed_on
            ⊆ ((record_execution tel d c status dur now).1.command_metrics c).devices_failed_on
        ∧ (status ≠ ExecutionStatus.SUCCESS →
            d ∈ (tel.command_metrics c).devices_failed_on →
            ((record_execution tel d c status dur now).1.command_metrics c).devices_failed_on.card
              = (tel.command_metrics c).devices_failed_on.card))
    ∧ (record_execution telPing2 "R3" "ping 8.8.8.8"
          ExecutionStatus.FAILURE none 2).2
        = some [Alert.commandRegression "ping 8.8.8.8"
            ({"R3", "R2", "R1"} : Finset String)]
    ∧ ({"R3", "R2", "R1"} : Finset String) = ({"R1", "R2", "R3"} : Finset String)
    ∧ (Alert.commandRegression "ping 8.8.8.8"
        ({"R1", "R2", "R3"} : Finset String)).msgTag = "COMMAND REGRESSION" := by
  refine ⟨?_, ?_, by decide, by decide, by decide⟩
  · intro tel d c
    rw [mem_check_alerts_regression]
    simp
  · intro tel d c status dur now
    have hset : ∀ hstat : status ≠ ExecutionStatus.SUCCESS,
        ((record_execution tel d c status dur now).1.command_metrics c).devices_failed_on
          = insert d (tel.command_metrics c).devices_failed_on := by
      intro hstat
      cases dur <;> simp [record_execution, updFn, hstat]
    have hsucc : ∀ hstat : status = ExecutionStatus.SUCCESS,
        ((record_execution tel d c status dur now).1.command_metrics c).devices_failed_on
          = (tel.command_metrics c).devices_failed_on := by
      intro hstat
      cases dur <;> simp [record_execution, updFn, hstat]
    refine ⟨hset, hsucc, ?_, ?_⟩
    · by_cases hstat : status = ExecutionStatus.SUCCESS
      · rw [hsucc hstat]
      · rw [hset hstat]
        exact Finset.subset_insert _ _
    · intro hstat hd
      rw [hset hstat, Finset.insert_eq_self.mpr hd]

/-- Claim C8, witness: the alert-condition equivalence applied after the
third distinct device fails the command. -/
theorem C8_witness :
    3 ≤ (((record_execution telPing2 "R3" "ping 8.8.8.8"
        ExecutionStatus.FAILURE none 2).1.command_metrics "ping 8.8.8.8").devices_failed_on).card :=
  (C8_thm.1
      (record_execution telPing2 "R3" "ping 8.8.8.8" ExecutionStatus.FAILURE none 2).1
      "R3" "ping 8.8.8.8").mp (by decide)

/-- Claim C3, witness: classifying `create ticket`, where keywords match, the
winning intent is the first maximal-score intent. -/
theorem C3_witness :
    (classify_with_keywords "create ticket").intent
      = bestKeywordIntent "create ticket" :=
  (((C3_thm "create ticket").2.2.2.1 (by decide)).1)
